import Mathlib

/-!
Verification development for the CPU code-generation backend
(`codegen_cpu.cc`).  The statement-lowering visitor, the parallel
work-partitioning arithmetic, the call-success control-flow helper, the
packed-function handle cache, closure packing, and the tagged-value
(`TVMFFIAny`) struct access paths are shallowly embedded as executable
Lean definitions, and the behavioural properties of the backend are
proved about those definitions.
-/

set_option linter.unusedVariables false

namespace CodeGenCPU

/-- Loop kinds of `ForNode` that reach `CodeGenCPU::VisitStmt_(const ForNode*)`. -/
inductive ForKind where
  | serial
  | unrolled
  | vectorized
  | parallel
deriving DecidableEq, Repr

/-- The fragment of TIR statements relevant to the CPU backend visitor:
sequencing, for-loops with constant bounds, attribute statements keyed by
string, and an opaque leaf statement. -/
inductive Stmt where
  | evaluate
  | seqStmt (first second : Stmt)
  | forStmt (kind : ForKind) (minVal extent : Nat) (body : Stmt)
  | attrStmt (key : String) (body : Stmt)
deriving DecidableEq, Repr

/-- Symbolic index expressions built by the parallel-for lowering.  The
task id and the number of tasks are runtime values of the closure; the
extent is a compile-time constant in this embedding. -/
inductive PExpr where
  | const (n : Nat)
  | taskId
  | numTask
  | add (a b : PExpr)
  | sub (a b : PExpr)
  | mul (a b : PExpr)
  | div (a b : PExpr)
  | minE (a b : PExpr)
deriving DecidableEq, Repr

/-- Evaluate a symbolic index expression at a concrete task id and task
count.  All values arising in the partition expressions are nonnegative,
so natural-number arithmetic agrees with the signed arithmetic of the
generated code. -/
def PExpr.eval (tid ntask : Nat) : PExpr → Nat
  | .const n => n
  | .taskId => tid
  | .numTask => ntask
  | .add a b => a.eval tid ntask + b.eval tid ntask
  | .sub a b => a.eval tid ntask - b.eval tid ntask
  | .mul a b => a.eval tid ntask * b.eval tid ntask
  | .div a b => a.eval tid ntask / b.eval tid ntask
  | .minE a b => min (a.eval tid ntask) (b.eval tid ntask)

/-- Observable emissions of the statement visitor: a call to the
parallel-launch primitive, emission of a serial loop over
`[lo, hi)` with the given step, and a call to the parallel-barrier
primitive with the current task-id variable and synchronization block. -/
inductive Event where
  | parallelLaunch (numTask : Nat)
  | serialFor (lo hi step : PExpr)
  | barrier (taskIdVar penvId : Nat)
deriving DecidableEq, Repr

/-- `ParallelEnv` of the backend: the synchronization-block handle
(`penv`, `none` models the null pointer), the task-id variable, the
stride-pattern request flag, the currently-inside-a-parallel-loop flag,
and the count of parallel loops lowered in this environment. -/
structure ParallelEnv where
  penv : Option Nat := none
  taskIdVar : Nat := 0
  stridePattern : Bool := false
  inParallelLoop : Bool := false
  parallelLoopCount : Nat := 0
deriving DecidableEq, Repr

/-- Compile-time visitor context: the active parallel environment and a
counter used to produce fresh identifiers for launch environments. -/
structure CGCtx where
  env : ParallelEnv
  nextId : Nat
deriving DecidableEq, Repr

/-- `step = (extent + num_task - 1) / num_task` as built by the block
partition branch of the parallel-for lowering. -/
def blockStepExpr (extent : Nat) : PExpr :=
  .div (.sub (.add (.const extent) .numTask) (.const 1)) .numTask

/-- `begin = min(task_id * step, extent)` of the block partition. -/
def blockBeginExpr (extent : Nat) : PExpr :=
  .minE (.mul .taskId (blockStepExpr extent)) (.const extent)

/-- `end = min((task_id + 1) * step, extent)` of the block partition. -/
def blockEndExpr (extent : Nat) : PExpr :=
  .minE (.mul (.add .taskId (.const 1)) (blockStepExpr extent)) (.const extent)

/-- The statement visitor of the CPU backend, covering
`VisitStmt_(const ForNode*)`, the pragma cases of
`VisitStmt_(const AttrStmtNode*)`, and `CreateParallelLaunch`.  Fatal
`ICHECK`/`LOG(FATAL)` diagnostics become `Except.error`; the result of a
successful lowering is the updated context together with the list of
emitted events.  The visit of the rebuilt `For` node performed by
`CreateParallelLaunch` on a top-level parallel loop is inlined (the
fresh environment is active there, so that visit deterministically takes
the in-environment block-partition branch). -/
def visit : CGCtx → Stmt → Except String (CGCtx × List Event)
  | ctx, .evaluate => .ok (ctx, [])
  | ctx, .seqStmt a b => do
      let (c1, e1) ← visit ctx a
      let (c2, e2) ← visit c1 b
      .ok (c2, e1 ++ e2)
  | ctx, .attrStmt key body =>
      if key = "pragma_parallel_stride_pattern" then
        if ctx.env.penv.isNone then
          .error "Pragma parallel_stride_pattern only valid in parallel launch"
        else
          visit { ctx with env := { ctx.env with stridePattern := true } } body
      else if key = "pragma_parallel_launch_point" then
        -- CreateParallelLaunch(op->body, 0, "pragma_parallel")
        do
          let (c1, evs) ← visit
            { env := { penv := some ctx.nextId, taskIdVar := ctx.nextId + 1 },
              nextId := ctx.nextId + 2 } body
          if c1.env.parallelLoopCount = 0 then
            .error "Cannot find parallel loop within parallel launch"
          else
            .ok ({ env := ctx.env, nextId := c1.nextId }, .parallelLaunch 0 :: evs)
      else if key = "pragma_parallel_barrier_when_finish" then
        if ctx.env.penv.isNone then
          .error "Cannot run barrier without parallel environment"
        else if ctx.env.inParallelLoop then
          .error "Cannot not place within parallel loop as the workload may differ"
        else do
          let (c1, evs) ← visit ctx body
          .ok (c1, evs ++ [.barrier c1.env.taskIdVar (c1.env.penv.getD 0)])
      else
        -- pragma_import_llvm and unrecognized pragmas lower the body unchanged
        visit ctx body
  | ctx, .forStmt kind minVal extent body =>
      if minVal ≠ 0 then
        .error "Check failed: is_zero(op->min)"
      else
        match kind with
        | .serial | .unrolled => do
            -- CodeGenLLVM::VisitStmt_ emits CreateSerialFor(0, extent, 1, body)
            let (c1, evs) ← visit ctx body
            .ok (c1, .serialFor (.const 0) (.const extent) (.const 1) :: evs)
        | .parallel =>
            match h : ctx.env.penv with
            | none =>
                -- CreateParallelLaunch(For(...), 0, "loop_parallel_" + name):
                -- emit the launch call, then lower the rebuilt For inside the
                -- fresh environment (block partition, loop count becomes 1),
                -- then ICHECK_NE(parallel_loop_count, 0)
                do
                  let (c1, evs) ← visit
                    { env := { penv := some ctx.nextId, taskIdVar := ctx.nextId + 1,
                               inParallelLoop := true },
                      nextId := ctx.nextId + 2 } body
                  if c1.env.parallelLoopCount + 1 = 0 then
                    .error "Cannot find parallel loop within parallel launch"
                  else
                    .ok ({ env := ctx.env, nextId := c1.nextId },
                         .parallelLaunch 0
                           :: .serialFor (blockBeginExpr extent) (blockEndExpr extent) (.const 1)
                           :: evs)
            | some _ =>
                if ctx.env.inParallelLoop then
                  .error "Nested parallel loop is not supported by threadpool, try fuse them instead"
                else
                  let partEvt : Event :=
                    if ctx.env.stridePattern then
                      .serialFor .taskId (.const extent) .numTask
                    else
                      .serialFor (blockBeginExpr extent) (blockEndExpr extent) (.const 1)
                  do
                    let (c1, evs) ← visit
                      { ctx with env := { ctx.env with inParallelLoop := true } } body
                    .ok ({ c1 with
                           env := { c1.env with
                                    inParallelLoop := false,
                                    parallelLoopCount := c1.env.parallelLoopCount + 1 } },
                         partEvt :: evs)
        | .vectorized => .error "cannot handle for type"

/-- Iteration worker for `serialForIndices`.  Since every iteration with
a positive step advances the index by at least one, `bound` units of fuel
always suffice; the fuel only makes the recursion structural. -/
def serialForIndicesGo (fuel init bound step : Nat) : List Nat :=
  match fuel with
  | 0 => []
  | fuel + 1 =>
      if init < bound ∧ 0 < step then
        init :: serialForIndicesGo fuel (init + step) bound step
      else
        []

/-- Indices visited by the emitted serial loop
`for (i = init; i < bound; i += step)`.  A positive step is required for
the loop to terminate. -/
def serialForIndices (init bound step : Nat) : List Nat :=
  serialForIndicesGo bound init bound step

/-- `step = ceil(extent / num_task)` of the block partition, over ℕ. -/
def blockStep (extent numTask : Nat) : Nat := (extent + numTask - 1) / numTask

/-- Lower bound of task `t`'s block-partition range. -/
def blockBegin (extent numTask t : Nat) : Nat := min (t * blockStep extent numTask) extent

/-- Upper bound of task `t`'s block-partition range. -/
def blockEnd (extent numTask t : Nat) : Nat := min ((t + 1) * blockStep extent numTask) extent

/-- Instructions of the post-call control-flow fragment emitted around a
runtime-ABI call: `icmpEqZero` compares the call status with zero,
`condBr` branches to its first target when the status was zero and to
the second otherwise, `retStatus` returns the status value from the
enclosing function, and `op tag` stands for any other instruction. -/
inductive Instr where
  | icmpEqZero
  | condBr (bbZero bbNonzero : Nat)
  | retStatus
  | op (tag : Nat)
deriving DecidableEq, Repr

/-- A function under construction: its basic blocks (instruction lists,
indexed by creation order) and the index of the insertion block. -/
structure CGFun where
  blocks : List (List Instr)
  insertAt : Nat
deriving DecidableEq, Repr

/-- Append an instruction to the current insertion block. -/
def emit (f : CGFun) (i : Instr) : CGFun :=
  { f with blocks := f.blocks.set f.insertAt ((f.blocks.getD f.insertAt []) ++ [i]) }

/-- Create a fresh (empty) basic block at the end of the function,
returning its index (`llvm::BasicBlock::Create`). -/
def newBlock (f : CGFun) : CGFun × Nat :=
  ({ f with blocks := f.blocks ++ [[]] }, f.blocks.length)

/-- Move the insertion point (`SetInsertPoint`). -/
def setInsert (f : CGFun) (b : Nat) : CGFun := { f with insertAt := b }

/-- `CodeGenCPU::CheckCallSuccess(retcode)`: create the `call_fail` and
`call_end` blocks, compare the status with zero, branch to `call_end` on
success and to `call_fail` otherwise, emit `ret retcode` into the
failure block, and leave the insertion point on `call_end`, whose index
is returned. -/
def checkCallSuccess (f : CGFun) : CGFun × Nat :=
  let p1 := newBlock f
  let p2 := newBlock p1.1
  let f3 := emit p2.1 .icmpEqZero
  let f4 := emit f3 (.condBr p2.2 p1.2)
  let f5 := setInsert f4 p1.2
  let f6 := emit f5 .retStatus
  let f7 := setInsert f6 p2.2
  (f7, p2.2)

/-- Execute emitted instructions at a given runtime status value.  The
result is `none` when out of fuel, `some (some v, tags)` when the
enclosing function returned `v`, and `some (none, tags)` when control
fell through the end of a block with no terminator; `tags` lists the
`op` instructions executed along the way. -/
def runInstrs (status : Int) (blocks : List (List Instr)) :
    Nat → List Instr → List Nat → Option (Option Int × List Nat)
  | _, [], acc => some (none, acc)
  | fuel, .icmpEqZero :: rest, acc => runInstrs status blocks fuel rest acc
  | fuel, .condBr bbZero bbNonzero :: _, acc =>
      match fuel with
      | 0 => none
      | fuel + 1 =>
          runInstrs status blocks fuel
            (blocks.getD (if status = 0 then bbZero else bbNonzero) []) acc
  | _, .retStatus :: _, acc => some (some status, acc)
  | fuel, .op tag :: rest, acc => runInstrs status blocks fuel rest (acc ++ [tag])
termination_by fuel instrs _ => (fuel, instrs.length)

/-- Emissions of `GetPackedFuncHandle` at one resolution site:
`loadHandle cell` is the fast-path aligned load of the cached cell;
`nullCheckBr cell` is the comparison of the loaded handle against null
together with the conditional branch; `allocaOut`, `ctxLoad`,
`callGetFuncFromEnv name`, `checkSuccStatus`, `loadOut`,
`storeHandle cell` and `brEnd` form the slow path (output slot,
module-context load, external lookup call, shared success check, load of
the resolved handle, store into the cell, jump to the merge);
`phiMerge cell` is the two-predecessor join. -/
inductive HandleEmit where
  | loadHandle (cell : Nat)
  | nullCheckBr (cell : Nat)
  | allocaOut
  | ctxLoad
  | callGetFuncFromEnv (name : String)
  | checkSuccStatus
  | loadOut
  | storeHandle (cell : Nat)
  | brEnd
  | phiMerge (cell : Nat)
deriving DecidableEq, Repr

/-- Module-level state of the handle cache: the names of the created
global cells in creation order (a cell is identified by its index), the
`func_handle_map_`, and the flat list of emissions so far. -/
structure ModState where
  globalNames : List String
  funcHandleMap : List (String × Nat)
  emits : List HandleEmit
deriving DecidableEq, Repr

/-- Lookup in `func_handle_map_` (keys are unique by construction). -/
def lookupHandle : List (String × Nat) → String → Option Nat
  | [], _ => none
  | (k, v) :: rest, name => if k = name then some v else lookupHandle rest name

/-- The full check-and-load pattern emitted at every resolution site for
the cell of `fname`. -/
def handlePattern (cell : Nat) (fname : String) : List HandleEmit :=
  [.loadHandle cell, .nullCheckBr cell, .allocaOut, .ctxLoad,
   .callGetFuncFromEnv fname, .checkSuccStatus, .loadOut,
   .storeHandle cell, .brEnd, .phiMerge cell]

/-- `CodeGenCPU::GetPackedFuncHandle(fname)`: on the first resolution of
a name, create the module-level zero-initialized global cell
`.tvm_func.fname` and record it in `func_handle_map_`; on a subsequent
resolution reuse the recorded cell.  In both cases then emit the
fast-path load of the cell, the null-check branch, the slow path
(module-context load, `TVMBackendGetFuncFromEnv` call, success check,
store into the cell) and the phi join.  Returns the updated state and
the cell used. -/
def getPackedFuncHandle (s : ModState) (fname : String) : ModState × Nat :=
  let p :=
    match lookupHandle s.funcHandleMap fname with
    | none =>
        let cell := s.globalNames.length
        ({ s with globalNames := s.globalNames ++ [".tvm_func." ++ fname],
                  funcHandleMap := s.funcHandleMap ++ [(fname, cell)] }, cell)
    | some cell => (s, cell)
  ({ p.1 with emits := p.1.emits ++ handlePattern p.2 fname }, p.2)

/-- Number of slow-path lookup calls in an emission list. -/
def countSlowPath (l : List HandleEmit) : Nat :=
  l.countP (fun e => match e with | .callGetFuncFromEnv _ => true | _ => false)

/-- `CodeGenCPU::PackClosureData`: an empty capture list yields the null
pointer (`none`) and byte size zero; otherwise the closure struct holds
the current value of each captured variable, one field per variable in
input order, and the byte size is the data layout's allocation size of
the struct (abstracted as `layoutSize`). -/
def packClosureData (varMap : Nat → Int) (vfields : List Nat) (layoutSize : Nat) :
    Option (List Int) × Nat :=
  if vfields.length = 0 then (none, 0)
  else (some (vfields.map varMap), layoutSize)

/-- `CodeGenCPU::UnpackClosureData`: load every field of the closure
struct by position and bind it to the corresponding variable in the
variable map. -/
def unpackClosureData (cdata : List Int) (vfields : List Nat) (vmap : Nat → Option Int) :
    Nat → Option Int :=
  (List.zip vfields cdata).foldl
    (fun m p => fun v => if v = p.1 then some p.2 else m v) vmap

/-- DLDataType type codes relevant to the tagged-value payload path. -/
inductive TypeCode where
  | intT
  | uintT
  | floatT
  | handleT
  | bfloatT
deriving DecidableEq, Repr

/-- A TIR data type: type code, bit width, number of lanes. -/
structure DType where
  code : TypeCode
  bits : Nat
  lanes : Nat
deriving DecidableEq, Repr

/-- `DataType::is_bool()`: unsigned with bit width one. -/
def DType.isBool (t : DType) : Bool := t.code == .uintT && t.bits == 1

/-- `DataType::is_int()`. -/
def DType.isInt (t : DType) : Bool := t.code == .intT

/-- `DataType::is_float()`. -/
def DType.isFloat (t : DType) : Bool := t.code == .floatT

/-- `DataType::is_handle()`: handle code and not void. -/
def DType.isHandle (t : DType) : Bool := t.code == .handleT && t.bits != 0

/-- The LLVM element types returned by the tagged-value payload access. -/
inductive LLType where
  | i8
  | i32
  | i64
  | f64
  | voidPtr
deriving DecidableEq, Repr

/-- `DataLayout::getTypeAllocSize` on a 64-bit target, in bytes. -/
def allocSize : LLType → Nat
  | .i8 => 1
  | .i32 => 4
  | .i64 => 8
  | .f64 => 8
  | .voidPtr => 8

/-- Result of the payload-field address computation: whether the base
pointer was reinterpreted as a tagged-value (`TVMFFIAny`) pointer, the
struct field index addressed, and the element type of the returned
typed pointer. -/
structure AnyFieldPtr where
  castToAnyPtr : Bool
  fieldIndex : Nat
  elemTy : LLType
deriving DecidableEq, Repr

/-- The `kTVMFFIAnyUnionValue` arm of `CodeGenCPU::CreateStructRefPtr`:
check that the requested type has one lane, reinterpret the base as a
`TVMFFIAny` pointer and address field 2 (the union value); the element
type is 1-byte for boolean, 8-byte integer for 64-bit integers, 8-byte
float for 64-bit floats, and pointer type for handles.  Any other
requested type logs a debug message and falls through to the
`default: LOG(FATAL) "unknown field code"` arm, so no typed pointer is
produced. -/
def createStructRefPtrAnyUnionValue (t : DType) : Except String AnyFieldPtr :=
  if t.lanes != 1 then .error "Check failed: t.lanes() == 1"
  else if t.isBool then .ok ⟨true, 2, .i8⟩
  else if t.isInt && (t.bits == 64) then .ok ⟨true, 2, .i64⟩
  else if t.isFloat && (t.bits == 64) then .ok ⟨true, 2, .f64⟩
  else if t.isHandle then .ok ⟨true, 2, .voidPtr⟩
  else .error "unknown field code"

/-- Replace the low `w` bytes of a 64-bit payload slot with `v`
(little-endian byte order). -/
def storeBytes (slot w v : Nat) : Nat :=
  v % 2 ^ (8 * w) + slot / 2 ^ (8 * w) * 2 ^ (8 * w)

/-- The `kTVMFFIAnyUnionValue` case of `tvm_struct_set` in
`CodeGenCPU::CreateIntrinsic`: compute the typed payload pointer for
the stored value's type; when the element type's allocation size is not
8 bytes, first store a 64-bit zero over the whole payload slot; then
store the value through the typed pointer. -/
def tvmStructSetAnyUnionValue (t : DType) (slot v : Nat) : Except String Nat := do
  let ref ← createStructRefPtrAnyUnionValue t
  let w := allocSize ref.elemTy
  let slot1 := if w ≠ 8 then 0 else slot
  pure (storeBytes slot1 w v)

theorem blockStepExpr_eval (e t n : Nat) :
    (blockStepExpr e).eval t n = blockStep e n := rfl

theorem blockBeginExpr_eval (e t n : Nat) :
    (blockBeginExpr e).eval t n = blockBegin e n t := rfl

theorem blockEndExpr_eval (e t n : Nat) :
    (blockEndExpr e).eval t n = blockEnd e n t := rfl

/-- Characterization of the ceiling step: `n * step` is the least
multiple of `n` that is at least `e`. -/
theorem blockStep_bounds (e n : Nat) (hn : 0 < n) :
    e ≤ n * blockStep e n ∧ n * blockStep e n < e + n := by
  have hdm := Nat.div_add_mod (e + n - 1) n
  have hlt : (e + n - 1) % n < n := Nat.mod_lt _ hn
  unfold blockStep
  omega

theorem blockBegin_monotone (e n : Nat) : Monotone (blockBegin e n) := by
  intro a b hab
  exact min_le_min (Nat.mul_le_mul_right _ hab) le_rfl

theorem mem_serialForIndicesGo (bound step : Nat) (hs : 0 < step) :
    ∀ fuel init x, bound - init ≤ fuel →
      (x ∈ serialForIndicesGo fuel init bound step ↔
        (∃ k, x = init + k * step) ∧ x < bound) := by
  intro fuel
  induction fuel with
  | zero =>
      intro init x hf
      simp only [serialForIndicesGo, List.not_mem_nil, false_iff, not_and]
      rintro ⟨k, rfl⟩
      omega
  | succ fuel ih =>
      intro init x hf
      rw [serialForIndicesGo]
      by_cases h : init < bound
      · rw [if_pos ⟨h, hs⟩]
        have IH := ih (init + step) x (by omega)
        simp only [List.mem_cons, IH]
        constructor
        · rintro (rfl | ⟨⟨k, rfl⟩, hx⟩)
          · exact ⟨⟨0, by omega⟩, h⟩
          · exact ⟨⟨k + 1, by ring⟩, hx⟩
        · rintro ⟨⟨k, rfl⟩, hx⟩
          match k with
          | 0 => exact Or.inl (by omega)
          | k + 1 => exact Or.inr ⟨⟨k, by ring⟩, hx⟩
      · rw [if_neg (by omega)]
        simp only [List.not_mem_nil, false_iff, not_and]
        rintro ⟨k, rfl⟩
        omega

/-- Membership in the indices of the emitted serial loop. -/
theorem mem_serialForIndices (bound step init x : Nat) (hs : 0 < step) :
    x ∈ serialForIndices init bound step ↔ (∃ k, x = init + k * step) ∧ x < bound :=
  mem_serialForIndicesGo bound step hs bound init x (by omega)

/-- With step 1, the emitted serial loop visits exactly the half-open
interval `[init, bound)`. -/
theorem mem_serialForIndices_one (init bound x : Nat) :
    x ∈ serialForIndices init bound 1 ↔ init ≤ x ∧ x < bound := by
  rw [mem_serialForIndices bound 1 init x Nat.one_pos]
  constructor
  · rintro ⟨⟨k, rfl⟩, hx⟩
    omega
  · rintro ⟨hle, hlt⟩
    exact ⟨⟨x - init, by omega⟩, hlt⟩

/-- C1: for every `extent > 0` and `num_task > 0`, block-partition
lowering of a parallel-for emits a serial per-task loop whose bounds
evaluate at task `t` to `[min(t*step, extent), min((t+1)*step, extent))`
with `step = ceil(extent / num_task)` (characterized by
`extent ≤ num_task * step < extent + num_task`); the loop visits exactly
that half-open range, and the ranges of tasks `0..num_task-1` are
pairwise disjoint, contiguous, sorted by task id, and their sizes sum to
exactly `extent`. -/
theorem c1_block_partition (e n p tv c k : Nat) (he : 0 < e) (hn : 0 < n) :
    (visit ⟨⟨some p, tv, false, false, c⟩, k⟩ (.forStmt .parallel 0 e .evaluate) =
        .ok (⟨⟨some p, tv, false, false, c + 1⟩, k⟩,
             [.serialFor (blockBeginExpr e) (blockEndExpr e) (.const 1)]))
    ∧ (∀ t, (blockBeginExpr e).eval t n = min (t * blockStep e n) e)
    ∧ (∀ t, (blockEndExpr e).eval t n = min ((t + 1) * blockStep e n) e)
    ∧ (e ≤ n * blockStep e n ∧ n * blockStep e n < e + n)
    ∧ (∀ t, blockBegin e n t ≤ blockEnd e n t)
    ∧ (∀ t x, x ∈ serialForIndices (blockBegin e n t) (blockEnd e n t) 1 ↔
          blockBegin e n t ≤ x ∧ x < blockEnd e n t)
    ∧ (∀ t1 t2, t1 < t2 → blockEnd e n t1 ≤ blockBegin e n t2)
    ∧ (∀ t, blockEnd e n t = blockBegin e n (t + 1))
    ∧ (∑ t ∈ Finset.range n, (blockEnd e n t - blockBegin e n t)) = e := by
  have hmono := blockBegin_monotone e n
  have hstep := blockStep_bounds e n hn
  refine ⟨rfl, fun t => rfl, fun t => rfl, hstep, ?_, ?_, ?_, fun t => rfl, ?_⟩
  · intro t
    exact min_le_min (Nat.mul_le_mul_right _ (Nat.le_succ t)) le_rfl
  · intro t x
    exact mem_serialForIndices_one _ _ _
  · intro t1 t2 h12
    calc blockEnd e n t1 = blockBegin e n (t1 + 1) := rfl
      _ ≤ blockBegin e n t2 := hmono h12
  · calc ∑ t ∈ Finset.range n, (blockEnd e n t - blockBegin e n t)
        = ∑ t ∈ Finset.range n, (blockBegin e n (t + 1) - blockBegin e n t) := rfl
      _ = blockBegin e n n - blockBegin e n 0 := Finset.sum_range_tsub hmono n
      _ = e := by
          have h1 := hstep.1
          unfold blockBegin
          rw [Nat.zero_mul]
          omega

/-- C1 witness: the spec example `extent = 10`, `num_task = 3`. -/
theorem c1_block_partition_witness :
    (visit ⟨⟨some 0, 1, false, false, 0⟩, 2⟩ (.forStmt .parallel 0 10 .evaluate) =
        .ok (⟨⟨some 0, 1, false, false, 1⟩, 2⟩,
             [.serialFor (blockBeginExpr 10) (blockEndExpr 10) (.const 1)]))
    ∧ (∑ t ∈ Finset.range 3, (blockEnd 10 3 t - blockBegin 10 3 t)) = 10 :=
  ⟨(c1_block_partition 10 3 0 1 0 2 (by decide) (by decide)).1,
   (c1_block_partition 10 3 0 1 0 2 (by decide) (by decide)).2.2.2.2.2.2.2.2⟩

/-- C2: when the enclosing scope requested the stride pattern, the
parallel-for lowering emits a serial loop with initial value `task_id`,
bound `extent`, and step `num_task`, and task `t` visits exactly the
indices `{t, t + num_task, t + 2*num_task, ...}` intersected with
`[0, extent)`. -/
theorem c2_stride_partition (e n p tv c k : Nat) (hn : 0 < n) :
    (visit ⟨⟨some p, tv, true, false, c⟩, k⟩ (.forStmt .parallel 0 e .evaluate) =
        .ok (⟨⟨some p, tv, true, false, c + 1⟩, k⟩,
             [.serialFor .taskId (.const e) .numTask]))
    ∧ (∀ t, PExpr.eval t n .taskId = t)
    ∧ (∀ t, PExpr.eval t n (.const e) = e)
    ∧ (∀ t, PExpr.eval t n .numTask = n)
    ∧ (∀ t x, x ∈ serialForIndices t e n ↔ (∃ j, x = t + j * n) ∧ x < e) :=
  ⟨rfl, fun t => rfl, fun t => rfl, fun t => rfl,
   fun t x => mem_serialForIndices e n t x hn⟩

/-- C2 witness: the spec example `extent = 7`, `num_task = 3`, task 0. -/
theorem c2_stride_partition_witness :
    (visit ⟨⟨some 0, 1, true, false, 0⟩, 2⟩ (.forStmt .parallel 0 7 .evaluate) =
        .ok (⟨⟨some 0, 1, true, false, 1⟩, 2⟩,
             [.serialFor .taskId (.const 7) .numTask]))
    ∧ 6 ∈ serialForIndices 0 7 3 :=
  ⟨(c2_stride_partition 7 3 0 1 0 2 (by decide)).1,
   ((c2_stride_partition 7 3 0 1 0 2 (by decide)).2.2.2.2 0 6).mpr
     ⟨⟨2, by decide⟩, by decide⟩⟩

/-- C7: a barrier pragma is a fatal lowering error when no parallel
environment is active, and when a per-task sub-range loop lowering is
still open; otherwise it lowers the body and then emits a call of the
barrier primitive with the current task-id variable and the
synchronization block of the active environment. -/
theorem c7_barrier_lowering (body : Stmt) :
    (∀ tv sp ipl c k, visit ⟨⟨none, tv, sp, ipl, c⟩, k⟩
        (.attrStmt "pragma_parallel_barrier_when_finish" body) =
        .error "Cannot run barrier without parallel environment")
    ∧ (∀ p tv sp c k, visit ⟨⟨some p, tv, sp, true, c⟩, k⟩
        (.attrStmt "pragma_parallel_barrier_when_finish" body) =
        .error "Cannot not place within parallel loop as the workload may differ")
    ∧ (∀ p tv sp c k c1 evs,
        visit ⟨⟨some p, tv, sp, false, c⟩, k⟩ body = .ok (c1, evs) →
        visit ⟨⟨some p, tv, sp, false, c⟩, k⟩
            (.attrStmt "pragma_parallel_barrier_when_finish" body) =
          .ok (c1, evs ++ [.barrier c1.env.taskIdVar (c1.env.penv.getD 0)])) := by
  refine ⟨fun tv sp ipl c k => rfl, fun p tv sp c k => rfl, ?_⟩
  intro p tv sp c k c1 evs h
  have step : visit ⟨⟨some p, tv, sp, false, c⟩, k⟩
      (.attrStmt "pragma_parallel_barrier_when_finish" body)
      = (visit ⟨⟨some p, tv, sp, false, c⟩, k⟩ body).bind
          (fun r => .ok (r.1, r.2 ++ [.barrier r.1.env.taskIdVar (r.1.env.penv.getD 0)])) := rfl
  rw [step, h]
  rfl

/-- C7 witness: a barrier directly inside an active environment succeeds
and carries the environment data; without an environment it fails. -/
theorem c7_barrier_lowering_witness :
    (visit ⟨⟨some 5, 7, false, false, 0⟩, 9⟩
        (.attrStmt "pragma_parallel_barrier_when_finish" .evaluate) =
      .ok (⟨⟨some 5, 7, false, false, 0⟩, 9⟩, [.barrier 7 5]))
    ∧ (visit ⟨⟨none, 7, false, false, 0⟩, 9⟩
        (.attrStmt "pragma_parallel_barrier_when_finish" .evaluate) =
      .error "Cannot run barrier without parallel environment") :=
  ⟨(c7_barrier_lowering .evaluate).2.2 5 7 false 0 9 _ _ rfl,
   (c7_barrier_lowering .evaluate).1 7 false false 0 9⟩

/-- C9: lowering a parallel launch whose body lowers without any
parallel loop (the fresh environment still has a parallel-loop count of
zero afterwards) aborts with a fatal diagnostic. -/
theorem c9_launch_requires_parallel_loop (env : ParallelEnv) (k : Nat) (body : Stmt)
    (c1 : CGCtx) (evs : List Event)
    (hbody : visit ⟨⟨some k, k + 1, false, false, 0⟩, k + 2⟩ body = .ok (c1, evs))
    (hcount : c1.env.parallelLoopCount = 0) :
    visit ⟨env, k⟩ (.attrStmt "pragma_parallel_launch_point" body) =
      .error "Cannot find parallel loop within parallel launch" := by
  have step : visit ⟨env, k⟩ (.attrStmt "pragma_parallel_launch_point" body)
      = (visit ⟨⟨some k, k + 1, false, false, 0⟩, k + 2⟩ body).bind
          (fun r => if r.1.env.parallelLoopCount = 0 then
              .error "Cannot find parallel loop within parallel launch"
            else .ok (⟨env, r.1.nextId⟩, .parallelLaunch 0 :: r.2)) := rfl
  rw [step, hbody]
  show (if c1.env.parallelLoopCount = 0 then
      (Except.error "Cannot find parallel loop within parallel launch" :
        Except String (CGCtx × List Event))
    else .ok (⟨env, c1.nextId⟩, .parallelLaunch 0 :: evs)) =
    .error "Cannot find parallel loop within parallel launch"
  rw [if_pos hcount]

/-- C9 witness: launching over a body with no loop at all is rejected. -/
theorem c9_launch_requires_parallel_loop_witness :
    visit ⟨⟨none, 0, false, false, 0⟩, 0⟩ (.attrStmt "pragma_parallel_launch_point" .evaluate) =
      .error "Cannot find parallel loop within parallel launch" :=
  c9_launch_requires_parallel_loop ⟨none, 0, false, false, 0⟩ 0 .evaluate
    ⟨⟨some 0, 1, false, false, 0⟩, 2⟩ [] rfl rfl

/-- C10: every for-loop handed to the CPU lowering, of any kind, whose
minimum bound is not the constant zero aborts generation with a fatal
diagnostic. -/
theorem c10_loop_min_must_be_zero (ctx : CGCtx) (kind : ForKind) (m e : Nat) (body : Stmt)
    (hm : m ≠ 0) :
    visit ctx (.forStmt kind m e body) = .error "Check failed: is_zero(op->min)" := by
  match m, hm with
  | m + 1, _ => rfl

/-- C10 witness: a serial loop with minimum 1 is rejected. -/
theorem c10_loop_min_must_be_zero_witness :
    visit ⟨⟨none, 0, false, false, 0⟩, 0⟩ (.forStmt .serial 1 5 .evaluate) =
      .error "Check failed: is_zero(op->min)" :=
  c10_loop_min_must_be_zero ⟨⟨none, 0, false, false, 0⟩, 0⟩ .serial 1 5 .evaluate
    (by decide)

theorem getD_set_self {α : Type} (l : List α) (n : Nat) (a d : α) (h : n < l.length) :
    (l.set n a).getD n d = a := by
  simp [List.getD_eq_getElem?_getD, List.getElem?_set_self, h]

theorem getD_set_ne {α : Type} (l : List α) (m n : Nat) (a d : α) (h : m ≠ n) :
    (l.set m a).getD n d = l.getD n d := by
  simp [List.getD_eq_getElem?_getD, List.getElem?_set_ne, h]

theorem getD_append_left {α : Type} (l l2 : List α) (n : Nat) (d : α) (h : n < l.length) :
    (l ++ l2).getD n d = l.getD n d := by
  simp [List.getD_eq_getElem?_getD, List.getElem?_append_left, h]

theorem getD_append_right {α : Type} (l l2 : List α) (n : Nat) (d : α) (h : l.length ≤ n) :
    (l ++ l2).getD n d = l2.getD (n - l.length) d := by
  simp [List.getD_eq_getElem?_getD, List.getElem?_append_right, h]

/-- The blocks of the function after `CheckCallSuccess`: the comparison
and the conditional branch are appended to the block that was current,
the failure block holds exactly the return of the status, and the
continuation block is empty. -/
theorem checkCallSuccess_blocks (f : CGFun) (h : f.insertAt < f.blocks.length) :
    (checkCallSuccess f).1.blocks =
      ((f.blocks ++ [[], []]).set f.insertAt
          ((f.blocks.getD f.insertAt []) ++
            [Instr.icmpEqZero, Instr.condBr (f.blocks.length + 1) f.blocks.length])).set
        f.blocks.length [Instr.retStatus] := by
  have h1 : f.insertAt < (f.blocks ++ [[]]).length := by simp; omega
  have h2 : f.insertAt < ((f.blocks ++ [[]]) ++ [[]]).length := by simp; omega
  simp only [checkCallSuccess, newBlock, emit, setInsert, List.length_append,
    List.length_singleton]
  have hE : ((f.blocks ++ [[]]) ++ [[]]).getD f.insertAt [] = f.blocks.getD f.insertAt [] := by
    rw [getD_append_left _ _ _ _ h1, getD_append_left _ _ _ _ h]
  rw [hE]
  rw [getD_set_self _ _ _ _ h2]
  rw [List.set_set]
  have hL : (((f.blocks ++ [[]]) ++ [[]]).set f.insertAt
      (f.blocks.getD f.insertAt [] ++ [Instr.icmpEqZero] ++
        [Instr.condBr (f.blocks.length + 1) f.blocks.length])).getD f.blocks.length [] = [] := by
    rw [getD_set_ne _ _ _ _ _ (by omega)]
    rw [getD_append_left _ _ _ _ (by simp)]
    rw [getD_append_right _ _ _ _ (by simp)]
    simp
  rw [hL]
  simp [List.append_assoc]

/-- C3: `CheckCallSuccess` creates two blocks: a failure block holding
exactly the return of the status from the enclosing function, and a
continuation block on which the insertion point is left, so that all
subsequent instructions for the call site are emitted there.  Executing
the emitted comparison-and-branch at a nonzero status returns that
status immediately (no other instruction runs); at status zero, control
reaches the (still open) continuation block. -/
theorem c3_check_call_success (f : CGFun) (h : f.insertAt < f.blocks.length) :
    ((checkCallSuccess f).1.blocks.length = f.blocks.length + 2)
    ∧ (checkCallSuccess f).2 = f.blocks.length + 1
    ∧ (checkCallSuccess f).1.blocks.getD f.blocks.length [] = [Instr.retStatus]
    ∧ (checkCallSuccess f).1.blocks.getD (f.blocks.length + 1) [] = []
    ∧ (checkCallSuccess f).1.insertAt = f.blocks.length + 1
    ∧ (checkCallSuccess f).1.blocks.getD f.insertAt [] =
        (f.blocks.getD f.insertAt []) ++
          [Instr.icmpEqZero, Instr.condBr (f.blocks.length + 1) f.blocks.length]
    ∧ (∀ i, (emit (checkCallSuccess f).1 i).blocks.getD (f.blocks.length + 1) [] = [i])
    ∧ (∀ (status : Int) (fuel : Nat),
        runInstrs status (checkCallSuccess f).1.blocks (fuel + 1)
            [Instr.icmpEqZero, Instr.condBr (f.blocks.length + 1) f.blocks.length] [] =
          if status = 0 then some (none, []) else some (some status, [])) := by
  have hb := checkCallSuccess_blocks f h
  have hlen : (checkCallSuccess f).1.blocks.length = f.blocks.length + 2 := by
    rw [hb]; simp
  have hfail : (checkCallSuccess f).1.blocks.getD f.blocks.length [] = [Instr.retStatus] := by
    rw [hb]
    exact getD_set_self _ _ _ _ (by simp)
  have hend : (checkCallSuccess f).1.blocks.getD (f.blocks.length + 1) [] = [] := by
    rw [hb]
    rw [getD_set_ne _ _ _ _ _ (by omega), getD_set_ne _ _ _ _ _ (by omega)]
    rw [getD_append_right _ _ _ _ (by omega)]
    simp
  have hret : (checkCallSuccess f).2 = f.blocks.length + 1 := by
    simp only [checkCallSuccess, newBlock, emit, setInsert, List.length_append,
      List.length_singleton]
  have hins : (checkCallSuccess f).1.insertAt = f.blocks.length + 1 := by
    simp only [checkCallSuccess, newBlock, emit, setInsert, List.length_append,
      List.length_singleton]
  have hcur : (checkCallSuccess f).1.blocks.getD f.insertAt [] =
      (f.blocks.getD f.insertAt []) ++
        [Instr.icmpEqZero, Instr.condBr (f.blocks.length + 1) f.blocks.length] := by
    rw [hb]
    rw [getD_set_ne _ _ _ _ _ (by omega)]
    exact getD_set_self _ _ _ _ (by simp; omega)
  refine ⟨hlen, hret, hfail, hend, hins, hcur, ?_, ?_⟩
  · intro i
    simp only [emit, hins]
    rw [getD_set_self _ _ _ _ (by rw [hlen]; omega), hend]
    simp
  · intro status fuel
    have hend2 : (checkCallSuccess f).1.blocks[f.blocks.length + 1]?.getD [] =
        ([] : List Instr) := by
      simpa [List.getD_eq_getElem?_getD] using hend
    have hfail2 : (checkCallSuccess f).1.blocks[f.blocks.length]?.getD [] =
        [Instr.retStatus] := by
      simpa [List.getD_eq_getElem?_getD] using hfail
    by_cases hs : status = 0
    · simp [runInstrs, hs, hend2]
    · simp [runInstrs, hs, hfail2]

/-- C3 witness: in a function with one open block, the check at status 5
returns 5 and the check at status 0 reaches the continuation block. -/
theorem c3_check_call_success_witness :
    (checkCallSuccess ⟨[[]], 0⟩).1.blocks.getD 1 [] = [Instr.retStatus]
    ∧ runInstrs 5 (checkCallSuccess ⟨[[]], 0⟩).1.blocks 1
        [Instr.icmpEqZero, Instr.condBr 2 1] [] = some (some 5, [])
    ∧ runInstrs 0 (checkCallSuccess ⟨[[]], 0⟩).1.blocks 1
        [Instr.icmpEqZero, Instr.condBr 2 1] [] = some (none, []) := by
  have H := c3_check_call_success ⟨[[]], 0⟩ (by decide)
  refine ⟨H.2.2.1, ?_, ?_⟩
  · have h5 := H.2.2.2.2.2.2.2 5 0
    simpa using h5
  · have h0 := H.2.2.2.2.2.2.2 0 0
    simpa using h0

theorem lookupHandle_append_self (m : List (String × Nat)) (name : String) (cell : Nat)
    (h : lookupHandle m name = none) :
    lookupHandle (m ++ [(name, cell)]) name = some cell := by
  induction m with
  | nil => simp [lookupHandle]
  | cons p rest ih =>
      match p with
      | (k, v) =>
        by_cases hk : k = name
        · simp [lookupHandle, hk] at h
        · simp only [List.cons_append, lookupHandle, if_neg hk] at h ⊢
          exact ih h

/-- C4 counterexample: resolving the same name twice from an empty
module state emits the slow-path lookup call at both resolution sites,
so the slow path is not emitted only once. -/
theorem c4_counterexample :
    countSlowPath (getPackedFuncHandle
        (getPackedFuncHandle ⟨[], [], []⟩ "f").1 "f").1.emits = 2
    ∧ countSlowPath (getPackedFuncHandle
        (getPackedFuncHandle ⟨[], [], []⟩ "f").1 "f").1.emits ≠ 1 :=
  ⟨rfl, by decide⟩

/-- C4 amended: only the global cell is memoized.  The first resolution
of a name creates the cell and records it; the second resolution of the
same name creates no new global and returns the same cell, but both
resolutions emit the full fast-path/null-check/slow-path pattern at
their own call sites, so the slow path is emitted once per resolution,
not once per name. -/
theorem c4_handle_cache_memoizes_cell (s : ModState) (fname : String)
    (hfresh : lookupHandle s.funcHandleMap fname = none) :
    ((getPackedFuncHandle s fname).1.globalNames =
        s.globalNames ++ [".tvm_func." ++ fname])
    ∧ (getPackedFuncHandle s fname).2 = s.globalNames.length
    ∧ (getPackedFuncHandle (getPackedFuncHandle s fname).1 fname).1.globalNames =
        (getPackedFuncHandle s fname).1.globalNames
    ∧ (getPackedFuncHandle (getPackedFuncHandle s fname).1 fname).2 =
        (getPackedFuncHandle s fname).2
    ∧ (getPackedFuncHandle s fname).1.emits =
        s.emits ++ handlePattern s.globalNames.length fname
    ∧ (getPackedFuncHandle (getPackedFuncHandle s fname).1 fname).1.emits =
        (getPackedFuncHandle s fname).1.emits ++
          handlePattern s.globalNames.length fname
    ∧ countSlowPath (getPackedFuncHandle (getPackedFuncHandle s fname).1 fname).1.emits =
        countSlowPath s.emits + 2 := by
  have h1 : getPackedFuncHandle s fname =
      ({ globalNames := s.globalNames ++ [".tvm_func." ++ fname],
         funcHandleMap := s.funcHandleMap ++ [(fname, s.globalNames.length)],
         emits := s.emits ++ handlePattern s.globalNames.length fname },
       s.globalNames.length) := by
    simp [getPackedFuncHandle, hfresh]
  have h2 : lookupHandle (s.funcHandleMap ++ [(fname, s.globalNames.length)]) fname
      = some s.globalNames.length := lookupHandle_append_self _ _ _ hfresh
  have h3 : getPackedFuncHandle (getPackedFuncHandle s fname).1 fname =
      ({ globalNames := s.globalNames ++ [".tvm_func." ++ fname],
         funcHandleMap := s.funcHandleMap ++ [(fname, s.globalNames.length)],
         emits := (s.emits ++ handlePattern s.globalNames.length fname)
                    ++ handlePattern s.globalNames.length fname },
       s.globalNames.length) := by
    rw [h1]
    simp [getPackedFuncHandle, h2]
  refine ⟨by rw [h1], by rw [h1], by rw [h3, h1], by rw [h3, h1], by rw [h1],
    by rw [h3, h1], ?_⟩
  rw [h3]
  simp only [countSlowPath, List.countP_append]
  have hp : (handlePattern s.globalNames.length fname).countP
      (fun e => match e with | .callGetFuncFromEnv _ => true | _ => false) = 1 := rfl
  rw [hp]

/-- C4 amended witness: two resolutions of the same fresh name. -/
theorem c4_handle_cache_memoizes_cell_witness :
    (getPackedFuncHandle (getPackedFuncHandle ⟨[], [], []⟩ "f").1 "f").1.globalNames =
      (getPackedFuncHandle ⟨[], [], []⟩ "f").1.globalNames
    ∧ countSlowPath (getPackedFuncHandle (getPackedFuncHandle ⟨[], [], []⟩ "f").1 "f").1.emits
        = countSlowPath ([] : List HandleEmit) + 2 :=
  ⟨(c4_handle_cache_memoizes_cell ⟨[], [], []⟩ "f" rfl).2.2.1,
   (c4_handle_cache_memoizes_cell ⟨[], [], []⟩ "f" rfl).2.2.2.2.2.2⟩

theorem foldl_update_untouched (pairs : List (Nat × Int)) (vmap : Nat → Option Int)
    (v : Nat) (hv : v ∉ pairs.map Prod.fst) :
    pairs.foldl (fun m p => fun x => if x = p.1 then some p.2 else m x) vmap v = vmap v := by
  induction pairs generalizing vmap with
  | nil => rfl
  | cons p rest ih =>
      simp only [List.map_cons, List.mem_cons] at hv
      push_neg at hv
      simp only [List.foldl_cons]
      rw [ih _ hv.2]
      simp [hv.1]

theorem foldl_update_mem (varMap : Nat → Int) (fields : List Nat)
    (vmap : Nat → Option Int) (v : Nat) (hv : v ∈ fields) :
    (fields.map (fun x => (x, varMap x))).foldl
        (fun m p => fun x => if x = p.1 then some p.2 else m x) vmap v
      = some (varMap v) := by
  induction fields generalizing vmap with
  | nil => cases hv
  | cons a rest ih =>
      simp only [List.map_cons, List.foldl_cons]
      by_cases hmem : v ∈ rest
      · exact ih _ hmem
      · have hva : v = a := by
          rcases List.mem_cons.mp hv with h | h
          · exact h
          · exact absurd h hmem
        subst hva
        rw [foldl_update_untouched]
        · simp
        · simpa using hmem

theorem zip_map_self (varMap : Nat → Int) (vfields : List Nat) :
    List.zip vfields (vfields.map varMap) = vfields.map (fun x => (x, varMap x)) := by
  induction vfields with
  | nil => rfl
  | cons a rest ih => simp [List.zip_cons_cons, ih]

theorem unpackClosureData_roundTrip (varMap : Nat → Int) (vfields : List Nat)
    (vmap : Nat → Option Int) (v : Nat) (hv : v ∈ vfields) :
    unpackClosureData (vfields.map varMap) vfields vmap v = some (varMap v) := by
  unfold unpackClosureData
  rw [zip_map_self]
  exact foldl_update_mem varMap vfields vmap v hv

/-- C5: packing a list of captured variables and immediately unpacking
reproduces, for each variable, the original value (for captures of any
length); the empty capture list yields the null closure pointer and a
byte size of zero. -/
theorem c5_closure_round_trip (varMap : Nat → Int) (vmap0 : Nat → Option Int)
    (vfields : List Nat) (layoutSize : Nat) :
    (packClosureData varMap [] layoutSize = (none, 0))
    ∧ (vfields ≠ [] →
        packClosureData varMap vfields layoutSize =
          (some (vfields.map varMap), layoutSize))
    ∧ (∀ v ∈ vfields,
        unpackClosureData (vfields.map varMap) vfields vmap0 v = some (varMap v)) := by
  refine ⟨rfl, ?_, fun v hv => unpackClosureData_roundTrip varMap vfields vmap0 v hv⟩
  intro hne
  simp [packClosureData, List.length_eq_zero, hne]

/-- C5 witness: a two-variable capture round-trips; the empty capture
yields the null pointer and size zero. -/
theorem c5_closure_round_trip_witness :
    (packClosureData (fun v => Int.ofNat (v * v)) [] 16 = (none, 0))
    ∧ packClosureData (fun v => Int.ofNat (v * v)) [3, 5] 16 = (some [9, 25], 16)
    ∧ unpackClosureData [9, 25] [3, 5] (fun _ => none) 5 = some 25 := by
  obtain ⟨h1, h2, h3⟩ :=
    c5_closure_round_trip (fun v => Int.ofNat (v * v)) (fun _ => none) [3, 5] 16
  have hmap : (([3, 5] : List Nat).map fun v => Int.ofNat (v * v)) = [9, 25] := rfl
  have h2x := h2 (by decide)
  rw [hmap] at h2x
  have h3x := h3 5 (by decide)
  rw [hmap] at h3x
  exact ⟨h1, h2x, h3x⟩

/-- C6: for every struct-set of the tagged-value payload whose stored
type occupies less than the full 8-byte slot, the lowering zeroes the
whole 64-bit payload slot before the store, so a subsequent read of the
payload as a 64-bit integer observes the remaining bytes as zero
regardless of the slot's previous contents. -/
theorem c6_payload_zero_fill (t : DType) (slot v : Nat) (ref : AnyFieldPtr)
    (href : createStructRefPtrAnyUnionValue t = .ok ref)
    (hw : allocSize ref.elemTy < 8)
    (hv : v < 2 ^ (8 * allocSize ref.elemTy)) :
    tvmStructSetAnyUnionValue t slot v = .ok (storeBytes 0 (allocSize ref.elemTy) v)
    ∧ storeBytes 0 (allocSize ref.elemTy) v / 2 ^ (8 * allocSize ref.elemTy) = 0
    ∧ storeBytes 0 (allocSize ref.elemTy) v % 2 ^ (8 * allocSize ref.elemTy) = v := by
  have hne : allocSize ref.elemTy ≠ 8 := by omega
  have hsb : storeBytes 0 (allocSize ref.elemTy) v = v := by
    unfold storeBytes
    rw [Nat.zero_div, Nat.zero_mul, Nat.add_zero, Nat.mod_eq_of_lt hv]
  refine ⟨?_, ?_, ?_⟩
  · unfold tvmStructSetAnyUnionValue
    rw [href]
    simp [Except.bind, hne]
  · rw [hsb]
    exact Nat.div_eq_of_lt hv
  · rw [hsb]
    exact Nat.mod_eq_of_lt hv

/-- C6 witness: a 1-byte boolean stored over a dirty slot reads back as
exactly 1 when reinterpreted as a 64-bit integer. -/
theorem c6_payload_zero_fill_witness :
    tvmStructSetAnyUnionValue ⟨.uintT, 1, 1⟩ 81985529216486895 1 = .ok 1
    ∧ (1 : Nat) / 2 ^ 8 = 0 :=
  ⟨((c6_payload_zero_fill ⟨.uintT, 1, 1⟩ 81985529216486895 1 ⟨true, 2, .i8⟩
      rfl (by decide) (by decide)).1).trans rfl, by decide⟩

/-- C8: the payload-field address computation reinterprets the base as a
tagged-value pointer and addresses field 2 (the union value); the
element type of the returned pointer is the 1-byte type for boolean, the
8-byte integer type for 64-bit integers, the 8-byte float type for
64-bit floats, and the pointer type for handles; any other single-lane
type is an error condition for which no typed pointer is produced. -/
theorem c8_any_union_value_ptr (t : DType) (hl : t.lanes = 1) :
    (t.isBool = true →
        createStructRefPtrAnyUnionValue t = .ok ⟨true, 2, .i8⟩ ∧ allocSize .i8 = 1)
    ∧ (t.isInt = true → t.bits = 64 →
        createStructRefPtrAnyUnionValue t = .ok ⟨true, 2, .i64⟩ ∧ allocSize .i64 = 8)
    ∧ (t.isFloat = true → t.bits = 64 →
        createStructRefPtrAnyUnionValue t = .ok ⟨true, 2, .f64⟩ ∧ allocSize .f64 = 8)
    ∧ (t.isHandle = true →
        createStructRefPtrAnyUnionValue t = .ok ⟨true, 2, .voidPtr⟩
          ∧ allocSize .voidPtr = 8)
    ∧ (t.isBool = false → (t.isInt && t.bits == 64) = false →
        (t.isFloat && t.bits == 64) = false → t.isHandle = false →
        createStructRefPtrAnyUnionValue t = .error "unknown field code") := by
  obtain ⟨code, bits, lanes⟩ := t
  simp only at hl
  subst hl
  refine ⟨?_, ?_, ?_, ?_, ?_⟩
  · intro hb
    simp [DType.isBool] at hb
    obtain ⟨hc, hbits⟩ := hb
    subst hc
    subst hbits
    exact ⟨rfl, rfl⟩
  · intro hi hbits
    simp [DType.isInt] at hi
    subst hi
    subst hbits
    exact ⟨rfl, rfl⟩
  · intro hf hbits
    simp [DType.isFloat] at hf
    subst hf
    subst hbits
    exact ⟨rfl, rfl⟩
  · intro hh
    simp [DType.isHandle] at hh
    obtain ⟨hc, hbits⟩ := hh
    subst hc
    simp [createStructRefPtrAnyUnionValue, DType.isBool, DType.isInt, DType.isFloat,
      DType.isHandle, allocSize, hbits]
  · intro h1 h2 h3 h4
    simp [createStructRefPtrAnyUnionValue, h1, h2, h3, h4]

/-- C8 witness: a 64-bit integer payload gets the 8-byte integer type; a
32-bit integer is rejected with the fall-through fatal error. -/
theorem c8_any_union_value_ptr_witness :
    createStructRefPtrAnyUnionValue ⟨.intT, 64, 1⟩ = .ok ⟨true, 2, .i64⟩
    ∧ createStructRefPtrAnyUnionValue ⟨.intT, 32, 1⟩ = .error "unknown field code" :=
  ⟨((c8_any_union_value_ptr ⟨.intT, 64, 1⟩ rfl).2.1 rfl rfl).1,
   (c8_any_union_value_ptr ⟨.intT, 32, 1⟩ rfl).2.2.2.2 rfl rfl rfl rfl⟩

end CodeGenCPU
